import Mathlib

/-!
Verification development for the voyager release engine.

The definitions below are a shallow embedding of the version resolution and
branch reconciliation engine found in `src/voyager/commands/release.py` and
`src/voyager/commands/rollback.py`.  Pure string processing (the regex
patterns used for version extraction, Python's `str.replace`, the semver
bump arithmetic) is embedded as executable Lean functions; the stateful git
layer is embedded as explicit state passing over a `RepoState` together with
a trace of attempted git operations, with an oracle `fails : GitOp → Bool`
deciding which external git commands raise `GitCommandError`.
-/

/-! ## Python string primitives -/

/-- Digit character test, modelling the ASCII regex digit class. -/
def isDigitCh (c : Char) : Bool := '0' ≤ c && c ≤ '9'

/-- Whitespace test, modelling the regex whitespace shorthand over ASCII
(space, tab, newline, carriage return, form feed, vertical tab). -/
def isSpaceCh (c : Char) : Bool :=
  c = ' ' || c = '\t' || c = '\n' || c = '\r' || c = '\x0c' || c = '\x0b'

/-- Does `pat` occur at the very start of `s`? -/
def matchesAt : List Char → List Char → Bool
  | [], _ => true
  | _ :: _, [] => false
  | a :: as, b :: bs => a = b && matchesAt as bs

/-- Worker for `pyReplace` when the pattern is empty: Python inserts the
replacement before every character and once at the end. -/
def interleaveNew (new : List Char) : List Char → List Char
  | [] => new
  | c :: cs => new ++ c :: interleaveNew new cs

/-- Fuel-driven worker for `pyReplace` (pattern known non-empty); one unit
of fuel is spent per consumed source character, which `pyReplace` supplies
in full. -/
def pyReplaceFuel : Nat → List Char → List Char → List Char → List Char
  | 0, s, _, _ => s
  | f + 1, s, old, new =>
    if matchesAt old s then new ++ pyReplaceFuel f (s.drop old.length) old new
    else
      match s with
      | [] => []
      | c :: cs => c :: pyReplaceFuel f cs old new

/-- Python's `str.replace(old, new)`: replace every non-overlapping
occurrence of `old` in `s` by `new`, scanning left to right. -/
def pyReplace (s old new : List Char) : List Char :=
  match old with
  | [] => interleaveNew new s
  | _ => pyReplaceFuel (s.length + 1) s old new

/-! ## Regular expression engine

The extraction patterns of the source are all sequences of literal
characters, single-character classes, starred classes, and exactly one
capture group holding a starred or plussed class (the group named
`version`, or the first group for the package-name pattern).  They are
embedded as values of `List RAtom`, and matched with a backtracking,
greedy matcher mirroring Python `re` semantics on this fragment. -/

/-- One atom of an embedded extraction pattern. -/
inductive RAtom where
  /-- a literal character -/
  | lit (c : Char)
  /-- a single character from a class -/
  | cls (f : Char → Bool)
  /-- zero or more characters from a class, greedy -/
  | star (f : Char → Bool)
  /-- the capture group, holding zero or more characters from a class -/
  | grpStar (f : Char → Bool)
  /-- the capture group, holding one or more characters from a class -/
  | grpPlus (f : Char → Bool)

/-- Match a pattern at the start of `s`.  Returns the number of consumed
characters and the characters captured by the group, if the pattern has
one.  Stars are greedy and backtrack, as in Python `re`. -/
def matchSeq : List RAtom → List Char → Option (Nat × Option (List Char))
  | [], _ => some (0, none)
  | .lit _ :: _, [] => none
  | .lit c :: ps, x :: xs =>
    if x = c then (matchSeq ps xs).map (fun r => (r.1 + 1, r.2)) else none
  | .cls _ :: _, [] => none
  | .cls f :: ps, x :: xs =>
    if f x then (matchSeq ps xs).map (fun r => (r.1 + 1, r.2)) else none
  | .star _ :: ps, [] => matchSeq ps []
  | .star f :: ps, x :: xs =>
    if f x then
      match matchSeq (.star f :: ps) xs with
      | some r => some (r.1 + 1, r.2)
      | none => matchSeq ps (x :: xs)
    else matchSeq ps (x :: xs)
  | .grpStar _ :: ps, [] => (matchSeq ps []).map (fun r => (r.1, some []))
  | .grpStar f :: ps, x :: xs =>
    if f x then
      match matchSeq (.grpStar f :: ps) xs with
      | some (n, g) => some (n + 1, some (x :: g.getD []))
      | none => (matchSeq ps (x :: xs)).map (fun r => (r.1, some []))
    else (matchSeq ps (x :: xs)).map (fun r => (r.1, some []))
  | .grpPlus _ :: _, [] => none
  | .grpPlus f :: ps, x :: xs =>
    if f x then
      match matchSeq (.grpStar f :: ps) xs with
      | some (n, g) => some (n + 1, some (x :: g.getD []))
      | none => none
    else none
  termination_by p s => (s.length, p.length)

/-- Leftmost search of a pattern in `s`, as `re.search`: returns the start
position, the match length and the captured group. -/
def reSearch (p : List RAtom) (s : List Char) : Option (Nat × Nat × Option (List Char)) :=
  match matchSeq p s with
  | some (n, g) => some (0, n, g)
  | none =>
    match s with
    | [] => none
    | _ :: xs => (reSearch p xs).map (fun r => (r.1 + 1, r.2.1, r.2.2))

/-- Embeds `_extract_version` of both source files: search the pattern in
the content and return the text captured by the `version` group; a match
without a capture group counts as no match, and so does a read failure
(handled by the caller passing no content). -/
def extractVersion (content : String) (p : List RAtom) : Option String :=
  match reSearch p content.data with
  | some (_, _, some g) => some (String.mk g)
  | some (_, _, none) => none
  | none => none

/-- Fuel-driven worker for `reSubFn`: replace every non-overlapping match,
left to right; a zero-width match emits the replacement and advances one
character, as modern Python does. -/
def reSubFuel (f : List Char → List Char) : Nat → List RAtom → List Char → List Char
  | 0, _, s => s
  | fuel + 1, p, s =>
    match matchSeq p s with
    | some (n, _) =>
      if n = 0 then
        match s with
        | [] => f []
        | c :: cs => f [] ++ c :: reSubFuel f fuel p cs
      else f (s.take n) ++ reSubFuel f fuel p (s.drop n)
    | none =>
      match s with
      | [] => []
      | c :: cs => c :: reSubFuel f fuel p cs

/-- Python's `re.sub(pattern, repl, content)` with a function replacement
receiving the whole matched text. -/
def reSubFn (p : List RAtom) (f : List Char → List Char) (content : String) : String :=
  String.mk (reSubFuel f (content.data.length + 1) p content.data)

/-- The substitution used by all three `_update_*` methods of
`VersionUpdater`: `re.sub` with replacement
`lambda m: m.group().replace(old_version, new_version)`. -/
def reSubGroupReplace (p : List RAtom) (old new content : String) : String :=
  reSubFn p (fun m => pyReplace m old.data new.data) content

/-- Python's `re.sub(pattern, repl, content)` with a constant replacement
string containing no backreferences. -/
def reSubConst (p : List RAtom) (repl : String) (content : String) : String :=
  reSubFn p (fun _ => repl.data) content

/-! ### The pattern table

Each definition embeds one regex literal of the source's pattern
dictionaries (`VersionFinder.patterns` in release.py, the `patterns`
dictionaries of rollback.py). -/

/-- Lift a literal string to a pattern segment. -/
def litStr (s : String) : List RAtom := s.data.map RAtom.lit

/-- Character class of a single or a double quote. -/
def quoteCh (c : Char) : Bool := c = '\'' || c = '"'

/-- Negated class: any character that is not a quote. -/
def notQuoteCh (c : Char) : Bool := !(c = '\'' || c = '"')

/-- Negated class: any character that is not a double quote. -/
def notDquoteCh (c : Char) : Bool := !(c = '"')

/-- Class of digits and dots. -/
def digitDotCh (c : Char) : Bool := isDigitCh c || c = '.'

/-- Pattern `python_init`: a dunder-version assignment with the version in
quotes, capture group on the quoted text. -/
def patPythonInit : List RAtom :=
  litStr "__version__" ++
    [.star isSpaceCh, .lit '=', .star isSpaceCh, .cls quoteCh,
     .grpStar notQuoteCh, .cls quoteCh]

/-- Pattern shared by the `pyproject_toml`, `gradle`, `cargo_toml` and
setup.py entries: a `version = "..."` assignment. -/
def patVersionAssign : List RAtom :=
  litStr "version" ++
    [.star isSpaceCh, .lit '=', .star isSpaceCh, .cls quoteCh,
     .grpStar notQuoteCh, .cls quoteCh]

/-- Pattern `package_json`: a JSON `"version": "..."` member. -/
def patPackageJson : List RAtom :=
  [.lit '"'] ++ litStr "version" ++ [.lit '"', .star isSpaceCh, .lit ':',
   .star isSpaceCh, .lit '"', .grpStar notDquoteCh, .lit '"']

/-- Pattern `gemspec`: a `.version = "..."` assignment. -/
def patGemspec : List RAtom :=
  [.lit '.'] ++ litStr "version" ++
    [.star isSpaceCh, .lit '=', .star isSpaceCh, .cls quoteCh,
     .grpStar notQuoteCh, .cls quoteCh]

/-- Pattern `version_txt` (also the generic default of `_guess_pattern`):
one or more digits or dots, all captured. -/
def patVersionTxt : List RAtom := [.grpPlus digitDotCh]

/-- Pattern used by `_guess_package_name` on setup.py and pyproject.toml:
a `name = "..."` assignment, first group on the quoted text. -/
def patName : List RAtom :=
  litStr "name" ++
    [.star isSpaceCh, .lit '=', .star isSpaceCh, .cls quoteCh,
     .grpStar notQuoteCh, .cls quoteCh]

/-! ## Version calculator

Models the calculation step of `create_release` (release.py lines 353-361):
`str(semver.VersionInfo.parse(current).bump_major/minor/patch())`.  The
semver library's parser on release versions requires exactly three
dot-separated numeric identifiers without leading zeroes; prerelease and
build handling is not modelled because no claim exercises it, and the
parser here reports failure on such inputs just as on any other
non-numeric input (the source then enters its interactive fallback). -/

/-- Decimal digit character of a value below ten. -/
def digitCharOf (n : Nat) : Char := Char.ofNat (48 + n)

/-- Python's `str` on a natural number: decimal digits, no leading zero. -/
def natRepr (n : Nat) : List Char :=
  if n = 0 then ['0'] else (Nat.digits 10 n).reverse.map digitCharOf

/-- Numeric value of a digit character. -/
def digitValOf (c : Char) : Nat := c.toNat - 48

/-- Value of a decimal digit string, most significant first. -/
def valOfChars (cs : List Char) : Nat :=
  cs.foldl (fun a c => a * 10 + digitValOf c) 0

/-- Parse one semver numeric identifier: non-empty, all digits, and no
leading zero. -/
def parseNumId (cs : List Char) : Option Nat :=
  if cs ≠ [] ∧ cs.all isDigitCh = true ∧ (cs = ['0'] ∨ cs.head? ≠ some '0')
  then some (valOfChars cs) else none

/-- Split a character list at every dot. -/
def splitDotsAux : List Char → List Char → List (List Char)
  | [], acc => [acc]
  | c :: cs, acc =>
    if c = '.' then acc :: splitDotsAux cs [] else splitDotsAux cs (acc ++ [c])

/-- Parse a release version `X.Y.Z` into its three numeric components. -/
def parseSemver (s : String) : Option (Nat × Nat × Nat) :=
  match splitDotsAux s.data [] with
  | [a, b, c] =>
    match parseNumId a, parseNumId b, parseNumId c with
    | some x, some y, some z => some (x, y, z)
    | _, _, _ => none
  | _ => none

/-- Render a three-component version back to a string, as
`str(semver.VersionInfo(...))` does for release versions. -/
def renderVersion (x y z : Nat) : String :=
  String.mk (natRepr x ++ ('.' :: (natRepr y ++ ('.' :: natRepr z))))

/-- The version calculation of `create_release`: parse the current version
and bump the component selected by the release type, resetting the lower
ones; a parse failure is reported to the caller (who falls back
interactively). -/
def calcNewVersion (ty : String) (current : String) : Option String :=
  match parseSemver current with
  | none => none
  | some (x, y, z) =>
    if ty = "major" then some (renderVersion (x + 1) 0 0)
    else if ty = "minor" then some (renderVersion x (y + 1) 0)
    else some (renderVersion x y (z + 1))

theorem isDigitCh_digitCharOf {d : Nat} (hd : d < 10) : isDigitCh (digitCharOf d) = true := by
  interval_cases d <;> decide

theorem digitValOf_digitCharOf {d : Nat} (hd : d < 10) : digitValOf (digitCharOf d) = d := by
  interval_cases d <;> decide

theorem digitCharOf_ne_dot {d : Nat} (hd : d < 10) : digitCharOf d ≠ '.' := by
  interval_cases d <;> decide

theorem digitCharOf_ne_zero {d : Nat} (hd : d < 10) (h0 : d ≠ 0) : digitCharOf d ≠ '0' := by
  interval_cases d <;> simp_all <;> decide

theorem valOfChars_reverse_digits (ds : List Nat) (a : Nat) (h : ∀ d ∈ ds, d < 10) :
    List.foldl (fun a c => a * 10 + digitValOf c) a (ds.reverse.map digitCharOf) =
      a * 10 ^ ds.length + Nat.ofDigits 10 ds := by
  induction ds generalizing a with
  | nil => simp [Nat.ofDigits_nil]
  | cons d ds ih =>
    have hd : d < 10 := h d (List.mem_cons_self d ds)
    have hds : ∀ x ∈ ds, x < 10 := fun x hx => h x (List.mem_cons_of_mem d hx)
    simp only [List.reverse_cons, List.map_append, List.map_cons, List.map_nil,
      List.foldl_append, List.foldl_cons, List.foldl_nil, ih a hds,
      Nat.ofDigits_cons, List.length_cons, digitValOf_digitCharOf hd]
    ring

theorem parseNumId_natRepr (n : Nat) : parseNumId (natRepr n) = some n := by
  by_cases h0 : n = 0
  · subst h0; decide
  · have hne : Nat.digits 10 n ≠ [] := Nat.digits_ne_nil_iff_ne_zero.mpr h0
    have hlt : ∀ d ∈ Nat.digits 10 n, d < 10 :=
      fun d hd => Nat.digits_lt_base (by norm_num) hd
    have hres : natRepr n = (Nat.digits 10 n).reverse.map digitCharOf := by
      simp [natRepr, h0]
    have hnonempty : natRepr n ≠ [] := by
      rw [hres]; simp [hne]
    have halldig : (natRepr n).all isDigitCh = true := by
      rw [hres, List.all_eq_true]
      intro c hc
      obtain ⟨d, hd, rfl⟩ := List.mem_map.mp hc
      exact isDigitCh_digitCharOf (hlt d (List.mem_reverse.mp hd))
    have hlast := Nat.getLast_digit_ne_zero 10 h0
    have hhead : (natRepr n).head? ≠ some '0' := by
      rw [hres, List.head?_map, List.head?_reverse]
      rw [List.getLast?_eq_getLast _ hne]
      simp only [Option.map_some']
      intro hcontra
      have heq := Option.some.inj hcontra
      exact digitCharOf_ne_zero
        (hlt _ (List.getLast_mem hne)) hlast heq
    have hval : valOfChars (natRepr n) = n := by
      rw [hres]
      show List.foldl _ 0 _ = n
      rw [valOfChars_reverse_digits _ 0 hlt, Nat.ofDigits_digits]
      ring
    unfold parseNumId
    rw [if_pos ⟨hnonempty, halldig, Or.inr hhead⟩, hval]

theorem natRepr_no_dot (n : Nat) : ∀ c ∈ natRepr n, c ≠ '.' := by
  intro c hc
  by_cases h0 : n = 0
  · subst h0; simp [natRepr] at hc; subst hc; decide
  · simp only [natRepr, if_neg h0] at hc
    obtain ⟨d, hd, rfl⟩ := List.mem_map.mp hc
    exact digitCharOf_ne_dot (Nat.digits_lt_base (by norm_num) (List.mem_reverse.mp hd))

theorem splitDotsAux_no_dot (s : List Char) :
    ∀ acc, (∀ c ∈ s, c ≠ '.') → splitDotsAux s acc = [acc ++ s] := by
  induction s with
  | nil => intro acc _; simp [splitDotsAux]
  | cons c cs ih =>
    intro acc h
    have hc : c ≠ '.' := h c (List.mem_cons_self c cs)
    have hcs : ∀ x ∈ cs, x ≠ '.' := fun x hx => h x (List.mem_cons_of_mem c hx)
    simp [splitDotsAux, hc, ih (acc ++ [c]) hcs]

theorem splitDotsAux_append (s : List Char) :
    ∀ acc t, (∀ c ∈ s, c ≠ '.') →
      splitDotsAux (s ++ '.' :: t) acc = (acc ++ s) :: splitDotsAux t [] := by
  induction s with
  | nil => intro acc t _; simp [splitDotsAux]
  | cons c cs ih =>
    intro acc t h
    have hc : c ≠ '.' := h c (List.mem_cons_self c cs)
    have hcs : ∀ x ∈ cs, x ≠ '.' := fun x hx => h x (List.mem_cons_of_mem c hx)
    simp [splitDotsAux, hc, ih (acc ++ [c]) t hcs]

theorem parseSemver_renderVersion (x y z : Nat) :
    parseSemver (renderVersion x y z) = some (x, y, z) := by
  unfold parseSemver renderVersion
  show (match splitDotsAux (natRepr x ++ ('.' :: (natRepr y ++ ('.' :: natRepr z)))) [] with
    | [a, b, c] =>
      match parseNumId a, parseNumId b, parseNumId c with
      | some x, some y, some z => some (x, y, z)
      | _, _, _ => none
    | _ => none) = some (x, y, z)
  rw [splitDotsAux_append _ [] _ (natRepr_no_dot x),
    splitDotsAux_append _ [] _ (natRepr_no_dot y),
    splitDotsAux_no_dot _ [] (natRepr_no_dot z)]
  simp [parseNumId_natRepr]

/-- C2: for every version of three dot-separated non-negative integers
`X.Y.Z`, the calculator returns `X.Y.(Z+1)` for a patch bump,
`X.(Y+1).0` for a minor bump and `(X+1).0.0` for a major bump. -/
theorem spec_C2_bump_arithmetic (x y z : Nat) :
    calcNewVersion "patch" (renderVersion x y z) = some (renderVersion x y (z + 1)) ∧
    calcNewVersion "minor" (renderVersion x y z) = some (renderVersion x (y + 1) 0) ∧
    calcNewVersion "major" (renderVersion x y z) = some (renderVersion (x + 1) 0 0) := by
  unfold calcNewVersion
  rw [parseSemver_renderVersion]
  refine ⟨?_, ?_, ?_⟩ <;> simp

/-! ## Repository model

The git layer is modelled as a state (checked-out branch, local branches,
remote branches known as origin refs, tags, per-branch file tables) plus a
trace of the git operations a code path attempted.  An oracle
`fails : GitOp → Bool` decides which external git invocations raise
`GitCommandError`; a failing operation leaves the state unchanged and is
still recorded in the trace. -/

/-- A tag reference: the tag name and the committer date of the tagged
commit (the sort key used by `get_current_version`). -/
structure TagRef where
  name : String
  time : Nat
  deriving DecidableEq

/-- One git operation attempted by the engine. -/
inductive GitOp where
  /-- `git checkout b` -/
  | checkout (b : String)
  /-- `git checkout -b b` -/
  | checkoutNew (b : String)
  /-- `git checkout -b b start` -/
  | checkoutNewFrom (b start : String)
  /-- `git fetch origin b` -/
  | fetch (b : String)
  /-- `git pull origin b` -/
  | pull (b : String)
  /-- `git rebase onto` -/
  | rebase (onto : String)
  /-- `git merge b --no-ff` -/
  | merge (b : String)
  /-- `git merge b --squash` -/
  | mergeSquash (b : String)
  /-- `git commit -m msg` -/
  | commit (msg : String)
  /-- `git add path` -/
  | add (path : String)
  /-- `git branch -D b` -/
  | branchDelete (b : String)
  /-- `git push origin b` -/
  | push (b : String)
  /-- `git push -f origin b` -/
  | pushForce (b : String)
  /-- a write of the given content to a file of the working tree -/
  | writeF (path content : String)
  /-- `repo.create_tag t` -/
  | mkTag (t : String)
  deriving DecidableEq

/-- The repository state visible to the engine. -/
structure RepoState where
  activeBranch : String
  branches : List String
  remoteBranches : List String
  tags : List TagRef
  files : String → List (String × String)
  tagFiles : String → List (String × String)

/-- Update or insert one file in a branch file table. -/
def setFile (fs : List (String × String)) (p c : String) : List (String × String) :=
  if fs.any (fun e => e.1 = p) then fs.map (fun e => if e.1 = p then (p, c) else e)
  else (p, c) :: fs

/-- Does a ref named `b` or `origin/b` exist?  Models the loops over
`git_repo.refs` used throughout the source. -/
def branchExists (st : RepoState) (b : String) : Bool :=
  st.branches.contains b || st.remoteBranches.contains b

/-- Does `path` exist on branch `br`? -/
def fileExistsB (st : RepoState) (br : String) (p : String) : Bool :=
  (st.files br).any (fun e => e.1 = p)

/-- Content of `path` on branch `br`, if the file exists and is readable. -/
def readFileB (st : RepoState) (br : String) (p : String) : Option String :=
  ((st.files br).find? (fun e => e.1 = p)).map (fun e => e.2)

/-- Effect of a successful git operation on the modelled state.  Content
effects of fetch, pull, rebase, merge and commit on the git history are
not modelled because no claim depends on them; branch-structure effects
and file writes are. -/
def applyOp (st : RepoState) : GitOp → RepoState
  | .checkout b => { st with activeBranch := b }
  | .checkoutNew b =>
    { st with
      branches := b :: st.branches
      activeBranch := b
      files := fun x => if x = b then st.files st.activeBranch else st.files x }
  | .checkoutNewFrom b t =>
    { st with
      branches := b :: st.branches
      activeBranch := b
      files := fun x => if x = b then st.tagFiles t else st.files x }
  | .branchDelete b => { st with branches := st.branches.filter (fun x => x != b) }
  | .writeF p c =>
    { st with
      files := fun x =>
        if x = st.activeBranch then setFile (st.files st.activeBranch) p c
        else st.files x }
  | .mkTag t => { st with tags := st.tags ++ [⟨t, 0⟩] }
  | _ => st

/-- A step of a straight-line git sequence: `hard` failures abort the
sequence (the exception propagates), `soft` failures are swallowed (the
source wraps the operation in its own try block and continues). -/
inductive Step where
  | hard (op : GitOp)
  | soft (op : GitOp)

/-- Run a straight-line sequence of git operations, stopping at the first
hard failure and returning it together with the state and trace. -/
def runSteps (fails : GitOp → Bool) :
    List Step → RepoState → List GitOp → Option GitOp × RepoState × List GitOp
  | [], st, tr => (none, st, tr)
  | .hard op :: rest, st, tr =>
    if fails op then (some op, st, tr ++ [op])
    else runSteps fails rest (applyOp st op) (tr ++ [op])
  | .soft op :: rest, st, tr =>
    if fails op then runSteps fails rest st (tr ++ [op])
    else runSteps fails rest (applyOp st op) (tr ++ [op])

/-! ## Branch reconciliation (release.py lines 169-318) -/

/-- The four merge strategies of `create_release`. -/
inductive MergeStrategy where
  | checkout
  | rebase
  | merge
  | mergeSquash
  deriving DecidableEq

/-- Commit message synthesized by the squash-merge strategy. -/
def squashMsg (wb rb : String) : String :=
  "Squashed merge of '" ++ wb ++ "' into '" ++ rb ++ "' for release"

/-- The git operations of the body of the strategy dispatch
(release.py lines 183-318), for working branch `wb`, release branch `rb`
and backup branch name `bk`: fetch both branches, create the timestamped
backup branch, return to the working branch, check out the release
branch, pull it (failure tolerated), integrate, and delete the backup. -/
def strategySteps : MergeStrategy → String → String → String → List Step
  | .checkout, _, rb, _ => [.hard (.checkout rb)]
  | .rebase, wb, rb, bk =>
    [.hard (.fetch rb), .hard (.fetch wb), .hard (.checkoutNew bk),
     .hard (.checkout wb), .hard (.checkout rb), .soft (.pull rb),
     .hard (.rebase bk), .hard (.branchDelete bk)]
  | .merge, wb, rb, bk =>
    [.hard (.fetch rb), .hard (.fetch wb), .hard (.checkoutNew bk),
     .hard (.checkout wb), .hard (.checkout rb), .soft (.pull rb),
     .hard (.merge wb), .hard (.branchDelete bk)]
  | .mergeSquash, wb, rb, bk =>
    [.hard (.fetch rb), .hard (.fetch wb), .hard (.checkoutNew bk),
     .hard (.checkout wb), .hard (.checkout rb), .soft (.pull rb),
     .hard (.mergeSquash wb), .hard (.commit (squashMsg wb rb)),
     .hard (.branchDelete bk)]

/-- Run the strategy body.  A `some` first component is the
`GitCommandError` that aborted the strategy, caught by the handler at
release.py line 323; `none` means the body completed. -/
def runMergeStrategy (fails : GitOp → Bool) (s : MergeStrategy)
    (wb rb bk : String) (st : RepoState) : Option GitOp × RepoState × List GitOp :=
  runSteps fails (strategySteps s wb rb bk) st []

theorem contains_filter_ne (l : List String) (b : String) :
    (l.filter (fun x => x != b)).contains b = false := by
  induction l with
  | nil => rfl
  | cons a l ih =>
    by_cases h : a = b
    · simp [List.filter_cons, h, ih]
    · simp [List.filter_cons, h, List.contains_cons, bne_iff_ne, Ne.symm h, ih]

/-- Underlying git command of a step. -/
def stepOp : Step → GitOp
  | .hard op => op
  | .soft op => op

theorem triple_eq {α β γ : Type} {a c : α} {b d : β} {e f : γ}
    (h : (a, b, e) = (c, d, f)) : a = c ∧ b = d ∧ e = f :=
  ⟨congrArg Prod.fst h, congrArg (fun p => p.2.1) h, congrArg (fun p => p.2.2) h⟩

theorem contains_filter_of_ne (l : List String) (b bk : String) (h : bk ≠ b) :
    (l.filter (fun x => x != b)).contains bk = l.contains bk := by
  induction l with
  | nil => rfl
  | cons a l ih =>
    by_cases hab : a = b
    · subst hab
      simp [List.filter_cons, List.contains_cons, ih, h]
    · simp [List.filter_cons, hab, List.contains_cons, ih, h]

theorem applyOp_keeps_contains (st : RepoState) (op : GitOp) (bk : String)
    (hop : op ≠ GitOp.branchDelete bk) (h : st.branches.contains bk = true) :
    (applyOp st op).branches.contains bk = true := by
  cases op with
  | checkout b => exact h
  | checkoutNew b =>
    have hm : bk ∈ st.branches := by simpa using h
    simp [applyOp, hm]
  | checkoutNewFrom b t =>
    have hm : bk ∈ st.branches := by simpa using h
    simp [applyOp, hm]
  | fetch b => exact h
  | pull b => exact h
  | rebase b => exact h
  | merge b => exact h
  | mergeSquash b => exact h
  | commit m => exact h
  | add p => exact h
  | branchDelete b =>
    have hb : bk ≠ b := fun hbk => hop (by rw [hbk])
    show (st.branches.filter (fun x => x != b)).contains bk = true
    rw [contains_filter_of_ne _ _ _ hb]
    exact h
  | push b => exact h
  | pushForce b => exact h
  | writeF p c => exact h
  | mkTag t => exact h

theorem runSteps_append (fails : GitOp → Bool) :
    ∀ (s1 s2 : List Step) (st : RepoState) (tr : List GitOp),
      runSteps fails (s1 ++ s2) st tr =
        (match runSteps fails s1 st tr with
         | (some e, st', tr') => (some e, st', tr')
         | (none, st', tr') => runSteps fails s2 st' tr') := by
  intro s1
  induction s1 with
  | nil => intro s2 st tr; rfl
  | cons s rest ih =>
    intro s2 st tr
    cases s with
    | hard op =>
      by_cases hf : fails op = true <;> simp [runSteps, hf, ih]
    | soft op =>
      by_cases hf : fails op = true <;> simp [runSteps, hf, ih]

theorem runSteps_fail_last (fails : GitOp → Bool) :
    ∀ (steps : List Step) (st : RepoState) (tr0 : List GitOp) (e : GitOp)
      (st' : RepoState) (tr' : List GitOp),
      runSteps fails steps st tr0 = (some e, st', tr') → tr'.getLast? = some e := by
  intro steps
  induction steps with
  | nil =>
    intro st tr0 e st' tr' h
    exact Option.noConfusion (triple_eq h).1
  | cons s rest ih =>
    intro st tr0 e st' tr' h
    cases s with
    | hard op =>
      by_cases hf : fails op = true
      · simp only [runSteps, hf, if_true] at h
        obtain ⟨he, -, htr⟩ := triple_eq h
        subst htr
        rw [List.getLast?_concat]
        exact he
      · simp only [runSteps, hf, if_false] at h
        exact ih _ _ _ _ _ h
    | soft op =>
      by_cases hf : fails op = true
      · simp only [runSteps, hf, if_true] at h
        exact ih _ _ _ _ _ h
      · simp only [runSteps, hf, if_false] at h
        exact ih _ _ _ _ _ h

theorem runSteps_keeps (fails : GitOp → Bool) (bk : String) :
    ∀ (steps : List Step) (st : RepoState) (tr0 : List GitOp) (r : Option GitOp)
      (st' : RepoState) (tr' : List GitOp),
      runSteps fails steps st tr0 = (r, st', tr') →
      (∀ s ∈ steps, stepOp s ≠ GitOp.branchDelete bk) →
      st.branches.contains bk = true → st'.branches.contains bk = true := by
  intro steps
  induction steps with
  | nil =>
    intro st tr0 r st' tr' h _ hc
    obtain ⟨-, hst, -⟩ := triple_eq h
    exact hst ▸ hc
  | cons s rest ih =>
    intro st tr0 r st' tr' h hno hc
    have hhead : stepOp s ≠ GitOp.branchDelete bk := hno s (List.mem_cons_self s rest)
    have hrest : ∀ x ∈ rest, stepOp x ≠ GitOp.branchDelete bk :=
      fun x hx => hno x (List.mem_cons_of_mem s hx)
    cases s with
    | hard op =>
      by_cases hf : fails op = true
      · simp only [runSteps, hf, if_true] at h
        obtain ⟨-, hst, -⟩ := triple_eq h
        exact hst ▸ hc
      · simp only [runSteps, hf, if_false] at h
        exact ih _ _ _ _ _ h hrest (applyOp_keeps_contains st op bk hhead hc)
    | soft op =>
      by_cases hf : fails op = true
      · simp only [runSteps, hf, if_true] at h
        exact ih _ _ _ _ _ h hrest hc
      · simp only [runSteps, hf, if_false] at h
        exact ih _ _ _ _ _ h hrest (applyOp_keeps_contains st op bk hhead hc)

/-- A failing run of middle commands (none deleting the backup) followed by
the final backup deletion preserves presence of the backup branch. -/
theorem midDelete_fail_keeps (fails : GitOp → Bool) (bk : String) (mid : List Step)
    (stX : RepoState) (trX : List GitOp) (e : GitOp) (st' : RepoState) (tr : List GitOp)
    (hmid : ∀ s ∈ mid, stepOp s ≠ GitOp.branchDelete bk)
    (hc : stX.branches.contains bk = true)
    (hrun : runSteps fails (mid ++ [.hard (.branchDelete bk)]) stX trX = (some e, st', tr)) :
    st'.branches.contains bk = true := by
  rw [runSteps_append] at hrun
  rcases hres : runSteps fails mid stX trX with ⟨r, stm, trm⟩
  rw [hres] at hrun
  have hkeep := runSteps_keeps fails bk mid stX trX r stm trm hres hmid hc
  cases r with
  | some e2 =>
    obtain ⟨-, hst, -⟩ := triple_eq hrun
    exact hst ▸ hkeep
  | none =>
    by_cases hdel : fails (GitOp.branchDelete bk) = true
    · simp only [runSteps, hdel, if_true] at hrun
      obtain ⟨-, hst, -⟩ := triple_eq hrun
      exact hst ▸ hkeep
    · simp only [runSteps, hdel, if_false] at hrun
      exact Option.noConfusion (triple_eq hrun).1

/-- Backbone of claim C3: for any strategy body shaped fetch-fetch-backup,
then middle commands none of which deletes the backup, then the final
backup deletion, a failing run that executed the backup creation
successfully ends in a state still holding the backup branch. -/
theorem backupSteps_fail_keeps (fails : GitOp → Bool) (rb wb bk : String)
    (mid : List Step) (st st' : RepoState) (e : GitOp) (tr : List GitOp)
    (hmid : ∀ s ∈ mid, stepOp s ≠ GitOp.branchDelete bk)
    (hrun : runSteps fails
        ([.hard (.fetch rb), .hard (.fetch wb), .hard (.checkoutNew bk)] ++
          (mid ++ [.hard (.branchDelete bk)])) st [] = (some e, st', tr))
    (hmem : GitOp.checkoutNew bk ∈ tr)
    (hok : fails (.checkoutNew bk) = false) :
    st'.branches.contains bk = true := by
  have h3 : ¬ (fails (GitOp.checkoutNew bk) = true) := by simp [hok]
  rw [runSteps_append] at hrun
  by_cases h1 : fails (GitOp.fetch rb) = true
  · simp only [runSteps, h1, if_true] at hrun
    obtain ⟨-, -, htr⟩ := triple_eq hrun
    subst htr
    simp at hmem
  · by_cases h2 : fails (GitOp.fetch wb) = true
    · simp only [runSteps, h1, h2, if_true, if_false] at hrun
      obtain ⟨-, -, htr⟩ := triple_eq hrun
      subst htr
      simp at hmem
    · simp only [runSteps, h1, h2, h3, if_true, if_false] at hrun
      exact midDelete_fail_keeps fails bk mid _ _ e st' tr hmid
        (by simp [applyOp, List.contains_cons]) hrun

/-- Backbone of claim C4: a successful run of a strategy body that ends by
deleting the backup branch leaves a state without the backup branch, with
the deletion as the final git operation of the trace. -/
theorem backupSteps_success (fails : GitOp → Bool) (pre : List Step) (bk : String)
    (st st' : RepoState) (tr : List GitOp)
    (hrun : runSteps fails (pre ++ [.hard (.branchDelete bk)]) st [] = (none, st', tr)) :
    st'.branches.contains bk = false ∧ tr.getLast? = some (GitOp.branchDelete bk) := by
  rw [runSteps_append] at hrun
  rcases hres : runSteps fails pre st [] with ⟨r, stm, trm⟩
  rw [hres] at hrun
  cases r with
  | some e => exact Option.noConfusion (triple_eq hrun).1
  | none =>
    by_cases hdel : fails (GitOp.branchDelete bk) = true
    · simp only [runSteps, hdel, if_true] at hrun
      exact Option.noConfusion (triple_eq hrun).1
    · simp only [runSteps, hdel, if_false] at hrun
      obtain ⟨-, hst, htr⟩ := triple_eq hrun
      subst hst
      subst htr
      constructor
      · exact contains_filter_ne _ _
      · exact List.getLast?_concat _

/-- C3: for every rebase, merge or squash-merge reconciliation in which a
git command fails after the backup branch was successfully created, the
strategy is aborted with the failing command surfaced to the caller, and
the backup branch still exists when control returns. -/
theorem spec_C3_backup_survives_failure (fails : GitOp → Bool) (s : MergeStrategy)
    (wb rb bk : String) (st st' : RepoState) (e : GitOp) (tr : List GitOp)
    (hs : s = .rebase ∨ s = .merge ∨ s = .mergeSquash)
    (hrun : runMergeStrategy fails s wb rb bk st = (some e, st', tr))
    (hmem : GitOp.checkoutNew bk ∈ tr)
    (hok : fails (.checkoutNew bk) = false) :
    st'.branches.contains bk = true ∧ tr.getLast? = some e := by
  have hlast := runSteps_fail_last fails (strategySteps s wb rb bk) st [] e st' tr hrun
  rcases hs with h | h | h <;> subst h
  · refine ⟨backupSteps_fail_keeps fails rb wb bk
      [.hard (.checkout wb), .hard (.checkout rb), .soft (.pull rb), .hard (.rebase bk)]
      st st' e tr ?_ hrun hmem hok, hlast⟩
    intro x hx
    fin_cases hx <;> simp [stepOp]
  · refine ⟨backupSteps_fail_keeps fails rb wb bk
      [.hard (.checkout wb), .hard (.checkout rb), .soft (.pull rb), .hard (.merge wb)]
      st st' e tr ?_ hrun hmem hok, hlast⟩
    intro x hx
    fin_cases hx <;> simp [stepOp]
  · refine ⟨backupSteps_fail_keeps fails rb wb bk
      [.hard (.checkout wb), .hard (.checkout rb), .soft (.pull rb),
       .hard (.mergeSquash wb), .hard (.commit (squashMsg wb rb))]
      st st' e tr ?_ hrun hmem hok, hlast⟩
    intro x hx
    fin_cases hx <;> simp [stepOp]

/-- Witness for C3: with the rebase command failing, the rebase strategy
on a concrete two-branch repository aborts and keeps the backup branch. -/
theorem spec_C3_witness :
    ((runMergeStrategy (fun op => op == GitOp.rebase "bk") .rebase "feature" "main" "bk"
        { activeBranch := "feature", branches := ["feature", "main"],
          remoteBranches := ["feature", "main"], tags := [],
          files := fun _ => [], tagFiles := fun _ => [] }).2.1.branches.contains "bk" = true) ∧
    ((runMergeStrategy (fun op => op == GitOp.rebase "bk") .rebase "feature" "main" "bk"
        { activeBranch := "feature", branches := ["feature", "main"],
          remoteBranches := ["feature", "main"], tags := [],
          files := fun _ => [], tagFiles := fun _ => [] }).2.2.getLast? =
      some (GitOp.rebase "bk")) :=
  spec_C3_backup_survives_failure (fun op => op == GitOp.rebase "bk") .rebase
    "feature" "main" "bk" _ _ (GitOp.rebase "bk") _ (Or.inl rfl) rfl (by decide) (by decide)

/-- C4: every rebase, merge or squash-merge reconciliation that completes
successfully has deleted the backup branch as its final git operation,
and the backup branch no longer exists when control returns. -/
theorem spec_C4_backup_deleted_on_success (fails : GitOp → Bool) (s : MergeStrategy)
    (wb rb bk : String) (st st' : RepoState) (tr : List GitOp)
    (hs : s = .rebase ∨ s = .merge ∨ s = .mergeSquash)
    (hrun : runMergeStrategy fails s wb rb bk st = (none, st', tr)) :
    st'.branches.contains bk = false ∧ tr.getLast? = some (GitOp.branchDelete bk) := by
  rcases hs with h | h | h <;> subst h
  · exact backupSteps_success fails
      [.hard (.fetch rb), .hard (.fetch wb), .hard (.checkoutNew bk), .hard (.checkout wb),
       .hard (.checkout rb), .soft (.pull rb), .hard (.rebase bk)] bk st st' tr hrun
  · exact backupSteps_success fails
      [.hard (.fetch rb), .hard (.fetch wb), .hard (.checkoutNew bk), .hard (.checkout wb),
       .hard (.checkout rb), .soft (.pull rb), .hard (.merge wb)] bk st st' tr hrun
  · exact backupSteps_success fails
      [.hard (.fetch rb), .hard (.fetch wb), .hard (.checkoutNew bk), .hard (.checkout wb),
       .hard (.checkout rb), .soft (.pull rb), .hard (.mergeSquash wb),
       .hard (.commit (squashMsg wb rb))] bk st st' tr hrun

/-- Witness for C4: an all-successful merge reconciliation on a concrete
repository ends by deleting the backup branch. -/
theorem spec_C4_witness :
    ((runMergeStrategy (fun _ => false) .merge "feature" "main" "bk"
        { activeBranch := "feature", branches := ["feature", "main"],
          remoteBranches := ["feature", "main"], tags := [],
          files := fun _ => [], tagFiles := fun _ => [] }).2.1.branches.contains "bk" = false) ∧
    ((runMergeStrategy (fun _ => false) .merge "feature" "main" "bk"
        { activeBranch := "feature", branches := ["feature", "main"],
          remoteBranches := ["feature", "main"], tags := [],
          files := fun _ => [], tagFiles := fun _ => [] }).2.2.getLast? =
      some (GitOp.branchDelete "bk")) :=
  spec_C4_backup_deleted_on_success (fun _ => false) .merge
    "feature" "main" "bk" _ _ _ (Or.inr (Or.inl rfl)) rfl

/-! ## Release pre-flight (release.py lines 87-150)

Models the entry of `create_release` up to the working-branch switch: the
git-repository check, the repository-info lookup, the release- and
working-branch existence checks, and the switch to the working branch.
The `treeDirty` parameter is the working-tree status that a clean-tree
validation would consult (the output of `git status --porcelain`); the
source never queries it. -/

/-- Outcome of the pre-flight: an exit code, or the state after the
working-branch switch together with the effective working branch and the
trace of git operations performed. -/
def releasePreflight (fails : GitOp → Bool) (isGitRepo : Bool)
    (repoInfo : Option (String × String)) (treeDirty : Bool)
    (workingOpt : Option String) (releaseBranch : String)
    (continueFromCurrent : Bool) (st : RepoState) :
    Except Nat (RepoState × String × List GitOp) :=
  if !isGitRepo then .error 1
  else
    match repoInfo with
    | none => .error 1
    | some _ =>
      let current := st.activeBranch
      let working := workingOpt.getD current
      if !(branchExists st releaseBranch) then .error 1
      else if working ≠ current then
        if !(branchExists st working) then .error 1
        else if fails (.checkout working) then
          if continueFromCurrent then .ok (st, current, [.checkout working])
          else .error 0
        else .ok (applyOp st (.checkout working), working, [.checkout working])
      else .ok (st, working, [])

/-- Is the pre-flight outcome a successful continuation? -/
def preflightOk : Except Nat (RepoState × String × List GitOp) → Bool
  | .ok _ => true
  | .error _ => false

/-- Git operations performed by the pre-flight. -/
def preflightTrace : Except Nat (RepoState × String × List GitOp) → List GitOp
  | .ok r => r.2.2
  | .error _ => []

/-- C1, amended: the release operation performs no clean-working-tree
validation; its pre-flight behaviour is identical on a clean and on a
dirty working tree. -/
theorem spec_C1_no_dirty_validation (fails : GitOp → Bool) (g : Bool)
    (info : Option (String × String)) (d1 d2 : Bool) (wo : Option String)
    (rb : String) (conf : Bool) (st : RepoState) :
    releasePreflight fails g info d1 wo rb conf st =
      releasePreflight fails g info d2 wo rb conf st := rfl

/-- C1 counterexample: on a concrete repository whose working tree is
dirty, the release operation does not fail fast; it proceeds and performs
a branch checkout (a repository mutation). -/
theorem spec_C1_counterexample :
    preflightOk (releasePreflight (fun _ => false) true (some ("owner", "repo")) true
      (some "feature") "main" false
      { activeBranch := "main", branches := ["main", "feature"],
        remoteBranches := ["main", "feature"], tags := [],
        files := fun _ => [], tagFiles := fun _ => [] }) = true ∧
    preflightTrace (releasePreflight (fun _ => false) true (some ("owner", "repo")) true
      (some "feature") "main" false
      { activeBranch := "main", branches := ["main", "feature"],
        remoteBranches := ["main", "feature"], tags := [],
        files := fun _ => [], tagFiles := fun _ => [] }) = [GitOp.checkout "feature"] := by
  constructor <;> rfl

/-! ## Path helpers shared by the finder and the updater -/

/-- Last path component, as os.path.basename with forward slashes. -/
def baseName (p : String) : String :=
  String.mk (p.data.foldl (fun acc c => if c = '/' then [] else acc ++ [c]) [])

/-- Lowercased extension of the last path component, including the dot;
empty when the name has no dot after its leading dots, mirroring
os.path.splitext followed by lower(). -/
def extLower (p : String) : String :=
  let b := (baseName p).data
  let rev := b.reverse
  let ePart := rev.takeWhile (fun c => c != '.')
  if ePart.length = b.length then ""
  else
    let pre := rev.drop (ePart.length + 1)
    if pre.all (fun c => c = '.') then ""
    else String.mk (('.' :: ePart.reverse).map Char.toLower)

/-- Embeds `_guess_pattern` of `VersionFinder` (release.py lines 671-692)
and the identical module-level `guess_version_pattern` of rollback.py:
choose an extraction pattern from the file name and extension. -/
def guessPattern (filePath : String) : List RAtom :=
  let fileName := baseName filePath
  let fileExt := extLower filePath
  if fileName = "pyproject.toml" ∨ fileExt = ".toml" then patVersionAssign
  else if fileName = "package.json" then patPackageJson
  else if fileExt = ".py" then patPythonInit
  else if fileName = "VERSION" ∨ fileName = "version.txt" ∨ fileExt = ".txt" then patVersionTxt
  else if fileExt = ".gradle" ∨ fileExt = ".kts" then patVersionAssign
  else if fileName = "Cargo.toml" then patVersionAssign
  else if fileExt = ".gemspec" then patGemspec
  else patVersionTxt

/-! ## Branch switching shared by the finder and the updater

`VersionFinder` and `VersionUpdater` define textually identical
`checkout_branch` and `restore_branch` methods; both are embedded once. -/

/-- Embeds `checkout_branch`: record the original branch, stay put when
the target branch is absent or already active or the checkout fails
(failures are swallowed with a warning), and report whether a switch
happened.  Returns (switched, original branch, state, trace). -/
def vcCheckoutBranch (fails : GitOp → Bool) (branch : Option String) (st : RepoState) :
    Bool × Option String × RepoState × List GitOp :=
  match branch with
  | none => (false, none, st, [])
  | some b =>
    let orig := st.activeBranch
    if !(branchExists st b) then (false, some orig, st, [])
    else if orig ≠ b then
      if fails (.checkout b) then (false, some orig, st, [.checkout b])
      else (true, some orig, applyOp st (.checkout b), [.checkout b])
    else (false, some orig, st, [])

/-- Embeds `restore_branch`: check out the original branch if recorded
and different from the target branch, swallowing any failure. -/
def restoreBranch (fails : GitOp → Bool) (orig : Option String) (branch : Option String)
    (st : RepoState) : RepoState × List GitOp :=
  match orig with
  | none => (st, [])
  | some o =>
    if branch ≠ some o then
      if fails (.checkout o) then (st, [.checkout o])
      else (applyOp st (.checkout o), [.checkout o])
    else (st, [])

/-! ## VersionFinder (release.py lines 491-707) -/

/-- Configuration of `VersionFinder`: the optional explicit version file
and pattern, and the branch to search. -/
structure FinderCfg where
  customFile : Option String
  customPattern : Option (List RAtom)
  branch : Option String

/-- Paths of the form `dir/__init__.py` one level below the root, in
file-table order; this is what the bounded os.walk of
`_get_common_version_locations` collects. -/
def topLevelInitFiles (st : RepoState) (br : String) : List String :=
  (st.files br).filterMap (fun e =>
    match e.1.splitOn "/" with
    | [_, f] => if f = "__init__.py" then some e.1 else none
    | _ => none)

/-- Embeds `_guess_package_name`: the name field of setup.py, else of
pyproject.toml, else the first top-level directory carrying an
`__init__.py` (directories listed in file-table order, modelling the
os.listdir order). -/
def guessPackageName (st : RepoState) (br : String) : Option String :=
  let fromFile : String → Option String := fun p =>
    match readFileB st br p with
    | some c =>
      match reSearch patName c.data with
      | some (_, _, some g) => some (String.mk g)
      | _ => none
    | none => none
  match fromFile "setup.py" with
  | some n => some n
  | none =>
    match fromFile "pyproject.toml" with
    | some n => some n
    | none =>
      match topLevelInitFiles st br with
      | p :: _ => some (String.mk (p.data.takeWhile (fun c => c != '/')))
      | [] => none

/-- Embeds `_get_common_version_locations` (release.py lines 598-635):
the package-name entry when guessed, the static convention table, and
the walked `__init__.py` files.  The literal `*.gemspec` entry is kept
as the source has it (os.path.exists never matches it, so it is dead). -/
def commonVersionLocations (st : RepoState) (br : String) : List (String × List RAtom) :=
  (match guessPackageName st br with
   | some p => [(p ++ "/__init__.py", patPythonInit)]
   | none => []) ++
  [("pyproject.toml", patVersionAssign),
   ("setup.py", patVersionAssign),
   ("package.json", patPackageJson),
   ("VERSION", patVersionTxt),
   ("version.txt", patVersionTxt),
   ("build.gradle", patVersionAssign),
   ("build.gradle.kts", patVersionAssign),
   ("Cargo.toml", patVersionAssign),
   ("*.gemspec", patGemspec)] ++
  (topLevelInitFiles st br).map (fun p => (p, patPythonInit))

/-- First convention entry whose file exists and yields a version. -/
def tryLocations (read : String → Option String) :
    List (String × List RAtom) → Option (String × String × List RAtom)
  | [] => none
  | (p, pat) :: rest =>
    match read p with
    | some c =>
      match extractVersion c pat with
      | some v => some (v, p, pat)
      | none => tryLocations read rest
    | none => tryLocations read rest

/-- Stable insertion sort by tag commit time; extensionally Python's
stable `sorted` with key `t.commit.committed_datetime` (ties keep their
original order). -/
def insertTag (t : TagRef) : List TagRef → List TagRef
  | [] => [t]
  | u :: us => if t.time < u.time then t :: u :: us else u :: insertTag t us

/-- Tags sorted by commit time, oldest first. -/
def sortTagsByTime (ts : List TagRef) : List TagRef :=
  ts.foldl (fun acc t => insertTag t acc) []

/-- Strip one leading lowercase v, as the tag fallback does. -/
def stripV (s : String) : String :=
  match s.data with
  | 'v' :: rest => String.mk rest
  | _ => s

/-- The explicit-file step of `get_current_version` (lines 561-567):
when an explicit file is configured and exists, extract with the explicit
or guessed pattern; on no match fall through to the convention table. -/
def customLookup (cfg : FinderCfg) (st : RepoState) (br : String) :
    Option (String × String × List RAtom) :=
  match cfg.customFile with
  | none => none
  | some f =>
    match readFileB st br f with
    | none => none
    | some c =>
      let pat := cfg.customPattern.getD (guessPattern f)
      (extractVersion c pat).map (fun v => (v, f, pat))

/-- The search body of `get_current_version` (lines 560-591), on branch
`br`: explicit file first, then the convention table in order, then the
most recent tag with a leading v stripped, else nothing found.  File
paths are kept relative to the repository root. -/
def searchOn (cfg : FinderCfg) (st : RepoState) (br : String) :
    Option String × Option String × Option (List RAtom) :=
  match customLookup cfg st br with
  | some (v, p, pat) => (some v, some p, some pat)
  | none =>
    match tryLocations (readFileB st br) (commonVersionLocations st br) with
    | some (v, p, pat) => (some v, some p, some pat)
    | none =>
      match (sortTagsByTime st.tags).getLast? with
      | some t => (some (stripV t.name), none, none)
      | none => (none, none, none)

/-- Embeds `VersionFinder.get_current_version` (lines 553-596): switch to
the version branch when needed, search, and in a `finally` block restore
the original branch when a switch happened.  The `fault` flag models an
exception raised inside the protected search body (the reason the source
wraps the search in try/finally); the search itself performs no git
operation. -/
def get_current_version (fails : GitOp → Bool) (fault : Bool) (cfg : FinderCfg)
    (st0 : RepoState) :
    Except Unit (Option String × Option String × Option (List RAtom)) ×
      RepoState × List GitOp :=
  let co := vcCheckoutBranch fails cfg.branch st0
  let res : Except Unit (Option String × Option String × Option (List RAtom)) :=
    if fault then .error () else .ok (searchOn cfg co.2.2.1 co.2.2.1.activeBranch)
  if co.1 then
    let rb := restoreBranch fails co.2.1 cfg.branch co.2.2.1
    (res, rb.1, co.2.2.2 ++ rb.2)
  else (res, co.2.2.1, co.2.2.2)

/-- C6: when a search branch is supplied, differs from the active branch
and is actually checked out for the search, the locator's final git
operation is the restoring checkout of the original branch on every exit
path, including a search-body error, and when that checkout succeeds the
original branch is active again on return. -/
theorem spec_C6_locator_restores_branch (fails : GitOp → Bool) (fault : Bool)
    (cfg : FinderCfg) (st0 : RepoState) (b : String)
    (hb : cfg.branch = some b)
    (hne : b ≠ st0.activeBranch)
    (hex : branchExists st0 b = true)
    (hco : fails (.checkout b) = false)
    (hre : fails (.checkout st0.activeBranch) = false) :
    (get_current_version fails fault cfg st0).2.1.activeBranch = st0.activeBranch ∧
    (get_current_version fails fault cfg st0).2.2.getLast? =
      some (GitOp.checkout st0.activeBranch) := by
  have hne' : st0.activeBranch ≠ b := Ne.symm hne
  simp [get_current_version, vcCheckoutBranch, restoreBranch, applyOp, hb, hex, hco,
    hre, hne, hne']

/-- Witness for C6: a concrete locate on a version branch with a faulting
search body still restores the original branch as its last operation. -/
theorem spec_C6_witness :
    ((get_current_version (fun _ => false) true ⟨none, none, some "version"⟩
        { activeBranch := "main", branches := ["main", "version"],
          remoteBranches := ["main", "version"], tags := [],
          files := fun _ => [], tagFiles := fun _ => [] }).2.1.activeBranch = "main") ∧
    ((get_current_version (fun _ => false) true ⟨none, none, some "version"⟩
        { activeBranch := "main", branches := ["main", "version"],
          remoteBranches := ["main", "version"], tags := [],
          files := fun _ => [], tagFiles := fun _ => [] }).2.2.getLast? =
      some (GitOp.checkout "main")) :=
  spec_C6_locator_restores_branch (fun _ => false) true ⟨none, none, some "version"⟩
    { activeBranch := "main", branches := ["main", "version"],
      remoteBranches := ["main", "version"], tags := [],
      files := fun _ => [], tagFiles := fun _ => [] } "version"
    rfl (by decide) rfl rfl rfl

/-- C8: when the explicit file and every convention-table entry fail to
yield a version and at least one tag exists, the search returns the most
recent tag's name with a leading v stripped, with no source path and no
pattern. -/
theorem spec_C8_tag_fallback (cfg : FinderCfg) (st : RepoState) (br : String) (t : TagRef)
    (hcustom : customLookup cfg st br = none)
    (hconv : tryLocations (readFileB st br) (commonVersionLocations st br) = none)
    (htag : (sortTagsByTime st.tags).getLast? = some t) :
    searchOn cfg st br = (some (stripV t.name), none, none) := by
  unfold searchOn
  rw [hcustom, hconv, htag]

/-- Witness for C8, scenario B of the specification: no version file
exists anywhere, tag v0.9.0 exists, and locate yields value 0.9.0 with
no source file. -/
theorem spec_C8_witness :
    (searchOn ⟨none, none, some "version"⟩
      { activeBranch := "main", branches := ["main"], remoteBranches := ["main"],
        tags := [⟨"v0.9.0", 3⟩], files := fun _ => [], tagFiles := fun _ => [] }
      "main" = (some (stripV "v0.9.0"), none, none)) ∧
    stripV "v0.9.0" = "0.9.0" :=
  ⟨spec_C8_tag_fallback ⟨none, none, some "version"⟩
    { activeBranch := "main", branches := ["main"], remoteBranches := ["main"],
      tags := [⟨"v0.9.0", 3⟩], files := fun _ => [], tagFiles := fun _ => [] }
    "main" ⟨"v0.9.0", 3⟩ rfl rfl rfl, rfl⟩

/-- C9: the locator is idempotent: a second fault-free call, starting from
the state the first call left behind, returns the same result as the
first (same version value, same source path, same pattern). -/
theorem spec_C9_locate_idempotent (fails : GitOp → Bool) (cfg : FinderCfg)
    (st0 : RepoState) :
    (get_current_version fails false cfg
        ((get_current_version fails false cfg st0).2.1)).1 =
      (get_current_version fails false cfg st0).1 := by
  cases hb : cfg.branch with
  | none => simp [get_current_version, vcCheckoutBranch, hb]
  | some b =>
    by_cases hex : branchExists st0 b = true
    · by_cases heq : st0.activeBranch = b
      · simp [get_current_version, vcCheckoutBranch, hb, hex, heq]
      · by_cases hco : fails (GitOp.checkout b) = true
        · simp [get_current_version, vcCheckoutBranch, hb, hex, heq, hco]
        · have heq' : ¬(b = st0.activeBranch) := fun h => heq h.symm
          by_cases hre : fails (GitOp.checkout st0.activeBranch) = true
          · have hex2 : branchExists { st0 with activeBranch := b } b = true := hex
            simp [get_current_version, vcCheckoutBranch, restoreBranch, applyOp,
              hb, hex, hex2, heq, heq', hco, hre]
          · have hex3 : branchExists { st0 with activeBranch := st0.activeBranch } b = true := hex
            simp [get_current_version, vcCheckoutBranch, restoreBranch, applyOp,
              hb, hex, hex3, heq, heq', hco, hre]
    · simp [get_current_version, vcCheckoutBranch, hb, hex]

/-! ## VersionUpdater (release.py lines 710-838, rollback.py lines 447-575)

The two source files define the class twice, textually identical except
for the commit message built from the new version ("Bump version to X"
in release.py, "Update version to X for rollback" in rollback.py); the
message is therefore a configuration field here. -/

/-- Configuration of `VersionUpdater`, plus the confirmation answer for
the push prompt. -/
structure UpdaterCfg where
  filePath : String
  pattern : List RAtom
  oldVersion : String
  newVersion : String
  branch : Option String
  commitMsg : String
  confirmPush : Bool

/-- Embeds `VersionUpdater._update_toml`. -/
def update_toml (pat : List RAtom) (old new content : String) : String :=
  reSubGroupReplace pat old new content

/-- Embeds `VersionUpdater._update_json`. -/
def update_json (pat : List RAtom) (old new content : String) : String :=
  reSubGroupReplace pat old new content

/-- Embeds `VersionUpdater._update_generic`. -/
def update_generic (pat : List RAtom) (old new content : String) : String :=
  reSubGroupReplace pat old new content

/-- The per-file-type dispatch inside `update_version` (release.py lines
774-786, rollback.py lines 511-523). -/
def updateDispatch (filePath : String) (pat : List RAtom) (old new content : String) :
    String :=
  let fileName := baseName filePath
  let fileExt := extLower filePath
  if fileName = "pyproject.toml" ∨ fileExt = ".toml" then update_toml pat old new content
  else if fileName = "package.json" then update_json pat old new content
  else if fileExt = ".py" then update_generic pat old new content
  else update_generic pat old new content

/-- Embeds `VersionUpdater.update_version`: optionally switch to the
version branch, read and rewrite the file, and when a switch happened
stage, commit and (after confirmation) push there, swallowing
add/commit/push failures with a warning; the `finally` block restores
the original branch.  Returns whether the changes were committed here;
a read failure is re-raised as an error after the restore. -/
def update_version (fails : GitOp → Bool) (u : UpdaterCfg) (st0 : RepoState) :
    Except String Bool × RepoState × List GitOp :=
  let co := vcCheckoutBranch fails u.branch st0
  let switched := co.1
  let orig := co.2.1
  let st1 := co.2.2.1
  let tr1 := co.2.2.2
  match readFileB st1 st1.activeBranch u.filePath with
  | none =>
    if switched then
      let rb := restoreBranch fails orig u.branch st1
      (.error ("Failed to update version in " ++ u.filePath), rb.1, tr1 ++ rb.2)
    else (.error ("Failed to update version in " ++ u.filePath), st1, tr1)
  | some content =>
    let newContent := updateDispatch u.filePath u.pattern u.oldVersion u.newVersion content
    let st2 := applyOp st1 (.writeF u.filePath newContent)
    let tr2 := tr1 ++ [.writeF u.filePath newContent]
    if switched then
      let cm :=
        if fails (.add u.filePath) then (false, st2, tr2 ++ [.add u.filePath])
        else
          let stA := applyOp st2 (.add u.filePath)
          let trA := tr2 ++ [.add u.filePath]
          if fails (.commit u.commitMsg) then (false, stA, trA ++ [.commit u.commitMsg])
          else
            let stC := applyOp stA (.commit u.commitMsg)
            let trC := trA ++ [.commit u.commitMsg]
            if u.confirmPush then
              match u.branch with
              | some b =>
                if fails (.push b) then (true, stC, trC ++ [.push b])
                else (true, applyOp stC (.push b), trC ++ [.push b])
              | none => (true, stC, trC)
            else (true, stC, trC)
      let rb := restoreBranch fails orig u.branch cm.2.1
      (.ok cm.1, rb.1, cm.2.2 ++ rb.2)
    else (.ok false, st2, tr2)

/-- C10: the three format-specific substitution methods of the version
updater are extensionally equal, so the per-file-type dispatch in
`update_version` produces the same new file content for every file
name. -/
theorem spec_C10_update_methods_equal (pat : List RAtom) (old new content : String)
    (filePath : String) :
    update_toml pat old new content = update_json pat old new content ∧
    update_json pat old new content = update_generic pat old new content ∧
    updateDispatch filePath pat old new content = update_generic pat old new content := by
  refine ⟨rfl, rfl, ?_⟩
  unfold updateDispatch
  dsimp only
  split_ifs <;> rfl

/-- Does this operation stage, commit or push? -/
def isStageOp : GitOp → Bool
  | .add _ => true
  | .commit _ => true
  | .push _ => true
  | _ => false

/-- C5: the updater's apply returns true exactly when it committed the
version change on a separate author branch; in that case the trace is
checkout, write, stage, commit, optional push, restore of the original
branch; when no branch switch occurred the updater only writes the file
and returns false, performing no stage, commit or push. -/
theorem spec_C5_updater_commit_signal (fails : GitOp → Bool) (u : UpdaterCfg)
    (st0 : RepoState) (b : String) (res : Except String Bool) (st' : RepoState)
    (tr : List GitOp)
    (hb : u.branch = some b)
    (hrun : update_version fails u st0 = (res, st', tr)) :
    (∀ rb, res = .ok rb →
      (rb = true ↔ (b ≠ st0.activeBranch ∧ branchExists st0 b = true ∧
        fails (.checkout b) = false ∧ fails (.add u.filePath) = false ∧
        fails (.commit u.commitMsg) = false))) ∧
    (res = .ok true →
      ∃ nc, tr = [GitOp.checkout b, GitOp.writeF u.filePath nc, GitOp.add u.filePath,
          GitOp.commit u.commitMsg] ++
          (if u.confirmPush then [GitOp.push b] else []) ++
          [GitOp.checkout st0.activeBranch]) ∧
    (¬(b ≠ st0.activeBranch ∧ branchExists st0 b = true ∧ fails (.checkout b) = false) →
      ((res = .ok false ∨ ∃ m, res = .error m) ∧ tr.all (fun op => !(isStageOp op)) = true)) ∧
    (res = .ok false → ∃ nc, GitOp.writeF u.filePath nc ∈ tr) := by
  unfold update_version at hrun
  rw [hb] at hrun
  by_cases hex : branchExists st0 b = true
  · by_cases heq : st0.activeBranch = b
    · -- branch exists but is already active: no switch
      simp only [vcCheckoutBranch, hex, heq, Bool.not_true, Bool.false_eq_true,
        if_false, ne_eq, not_true_eq_false, if_true] at hrun
      cases hread : readFileB st0 b u.filePath with
      | none =>
        rw [hread] at hrun
        obtain ⟨hres, hst, htr⟩ := triple_eq hrun
        subst hres; subst htr
        refine ⟨?_, ?_, ?_, ?_⟩
        · intro rb hrb; exact Except.noConfusion hrb
        · intro h2; exact Except.noConfusion h2
        · intro hns; exact ⟨Or.inr ⟨_, rfl⟩, rfl⟩
        · intro h4; exact Except.noConfusion h4
      | some c =>
        rw [hread] at hrun
        obtain ⟨hres, hst, htr⟩ := triple_eq hrun
        subst hres; subst htr
        refine ⟨?_, ?_, ?_, ?_⟩
        · intro rb hrb
          injection hrb with h; subst h
          simp [heq]
        · intro h2; injection h2 with h; exact Bool.noConfusion h
        · intro hns
          refine ⟨Or.inl rfl, ?_⟩
          simp [isStageOp]
        · intro h4
          refine ⟨updateDispatch u.filePath u.pattern u.oldVersion u.newVersion c, ?_⟩
          simp
    · have heq' : ¬(b = st0.activeBranch) := fun h => heq h.symm
      by_cases hco : fails (GitOp.checkout b) = true
      · -- branch exists, differs, but the checkout fails: no switch
        simp only [vcCheckoutBranch, hex, heq, hco, Bool.not_true, Bool.false_eq_true,
          if_false, ne_eq, not_false_eq_true, if_true] at hrun
        cases hread : readFileB st0 st0.activeBranch u.filePath with
        | none =>
          rw [hread] at hrun
          obtain ⟨hres, hst, htr⟩ := triple_eq hrun
          subst hres; subst htr
          refine ⟨?_, ?_, ?_, ?_⟩
          · intro rb hrb; exact Except.noConfusion hrb
          · intro h2; exact Except.noConfusion h2
          · intro hns; exact ⟨Or.inr ⟨_, rfl⟩, rfl⟩
          · intro h4; exact Except.noConfusion h4
        | some c =>
          rw [hread] at hrun
          obtain ⟨hres, hst, htr⟩ := triple_eq hrun
          subst hres; subst htr
          refine ⟨?_, ?_, ?_, ?_⟩
          · intro rb hrb
            injection hrb with h; subst h
            simp [hco]
          · intro h2; injection h2 with h; exact Bool.noConfusion h
          · intro hns
            refine ⟨Or.inl rfl, ?_⟩
            simp [isStageOp]
          · intro h4
            refine ⟨updateDispatch u.filePath u.pattern u.oldVersion u.newVersion c, ?_⟩
            simp
      · -- the switch happens
        have hsw : b ≠ st0.activeBranch ∧ branchExists st0 b = true ∧
            fails (GitOp.checkout b) = false := ⟨heq', hex, by simpa using hco⟩
        simp only [vcCheckoutBranch, restoreBranch, applyOp, hex, heq, heq', hco,
          Bool.not_true, Bool.false_eq_true, if_false, ne_eq, not_false_eq_true,
          if_true, Option.some.injEq] at hrun
        cases hread : readFileB { st0 with activeBranch := b } b u.filePath with
        | none =>
          rw [hread] at hrun
          by_cases hre : fails (GitOp.checkout st0.activeBranch) = true
          · simp only [hre, if_true] at hrun
            obtain ⟨hres, hst, htr⟩ := triple_eq hrun
            subst hres; subst htr
            refine ⟨?_, ?_, ?_, ?_⟩
            · intro rb hrb; exact Except.noConfusion hrb
            · intro h2; exact Except.noConfusion h2
            · intro hns; exact absurd hsw hns
            · intro h4; exact Except.noConfusion h4
          · simp only [hre, Bool.false_eq_true, if_false] at hrun
            obtain ⟨hres, hst, htr⟩ := triple_eq hrun
            subst hres; subst htr
            refine ⟨?_, ?_, ?_, ?_⟩
            · intro rb hrb; exact Except.noConfusion hrb
            · intro h2; exact Except.noConfusion h2
            · intro hns; exact absurd hsw hns
            · intro h4; exact Except.noConfusion h4
        | some c =>
          rw [hread] at hrun
          by_cases hadd : fails (GitOp.add u.filePath) = true
          · simp only [hadd, if_true] at hrun
            by_cases hre : fails (GitOp.checkout st0.activeBranch) = true <;>
              [simp only [hre, if_true] at hrun;
               simp only [hre, Bool.false_eq_true, if_false] at hrun] <;>
              (obtain ⟨hres, hst, htr⟩ := triple_eq hrun
               subst hres; subst htr
               refine ⟨?_, ?_, ?_, ?_⟩
               · intro rb hrb
                 injection hrb with h; subst h
                 simp [hadd]
               · intro h2; injection h2 with h; exact Bool.noConfusion h
               · intro hns; exact absurd hsw hns
               · intro h4
                 refine ⟨updateDispatch u.filePath u.pattern u.oldVersion u.newVersion c, ?_⟩
                 simp)
          · by_cases hcm : fails (GitOp.commit u.commitMsg) = true
            · simp only [hadd, hcm, Bool.false_eq_true, if_false, if_true, applyOp] at hrun
              by_cases hre : fails (GitOp.checkout st0.activeBranch) = true <;>
                [simp only [hre, if_true] at hrun;
                 simp only [hre, Bool.false_eq_true, if_false] at hrun] <;>
                (obtain ⟨hres, hst, htr⟩ := triple_eq hrun
                 subst hres; subst htr
                 refine ⟨?_, ?_, ?_, ?_⟩
                 · intro rb hrb
                   injection hrb with h; subst h
                   simp [hcm]
                 · intro h2; injection h2 with h; exact Bool.noConfusion h
                 · intro hns; exact absurd hsw hns
                 · intro h4
                   refine ⟨updateDispatch u.filePath u.pattern u.oldVersion u.newVersion c, ?_⟩
                   simp)
            · -- stage and commit succeed: the updater returns true
              simp only [hadd, hcm, Bool.false_eq_true, if_false, applyOp] at hrun
              by_cases hcp : u.confirmPush = true
              · by_cases hpu : fails (GitOp.push b) = true <;>
                  by_cases hre : fails (GitOp.checkout st0.activeBranch) = true <;>
                  simp only [hcp, hpu, hre, if_true, Bool.false_eq_true, if_false,
                    applyOp] at hrun <;>
                  (obtain ⟨hres, hst, htr⟩ := triple_eq hrun
                   subst hres; subst htr
                   refine ⟨?_, ?_, ?_, ?_⟩
                   · intro rb hrb
                     injection hrb with h; subst h
                     simp [hsw.1, hsw.2.1, hsw.2.2, hadd, hcm]
                   · intro h2
                     refine ⟨updateDispatch u.filePath u.pattern u.oldVersion u.newVersion c, ?_⟩
                     simp [hcp]
                   · intro hns; exact absurd hsw hns
                   · intro h4; injection h4 with h; exact Bool.noConfusion h)
              · by_cases hre : fails (GitOp.checkout st0.activeBranch) = true <;>
                  simp only [hcp, hre, if_true, Bool.false_eq_true, if_false,
                    applyOp] at hrun <;>
                  (obtain ⟨hres, hst, htr⟩ := triple_eq hrun
                   subst hres; subst htr
                   refine ⟨?_, ?_, ?_, ?_⟩
                   · intro rb hrb
                     injection hrb with h; subst h
                     simp [hsw.1, hsw.2.1, hsw.2.2, hadd, hcm]
                   · intro h2
                     refine ⟨updateDispatch u.filePath u.pattern u.oldVersion u.newVersion c, ?_⟩
                     simp [hcp]
                   · intro hns; exact absurd hsw hns
                   · intro h4; injection h4 with h; exact Bool.noConfusion h)
  · -- the configured branch does not exist: no switch
    simp only [vcCheckoutBranch, hex, Bool.not_eq_true', Bool.not_true, if_true,
      eq_self_iff_true, Bool.false_eq_true, if_false] at hrun
    cases hread : readFileB st0 st0.activeBranch u.filePath with
    | none =>
      rw [hread] at hrun
      obtain ⟨hres, hst, htr⟩ := triple_eq hrun
      subst hres; subst htr
      refine ⟨?_, ?_, ?_, ?_⟩
      · intro rb hrb; exact Except.noConfusion hrb
      · intro h2; exact Except.noConfusion h2
      · intro hns; exact ⟨Or.inr ⟨_, rfl⟩, rfl⟩
      · intro h4; exact Except.noConfusion h4
    | some c =>
      rw [hread] at hrun
      obtain ⟨hres, hst, htr⟩ := triple_eq hrun
      subst hres; subst htr
      refine ⟨?_, ?_, ?_, ?_⟩
      · intro rb hrb
        injection hrb with h; subst h
        simp [hex]
      · intro h2; injection h2 with h; exact Bool.noConfusion h
      · intro hns
        refine ⟨Or.inl rfl, ?_⟩
        simp [isStageOp]
      · intro h4
        refine ⟨updateDispatch u.filePath u.pattern u.oldVersion u.newVersion c, ?_⟩
        simp

/-- Updater configuration of the C5 witness run: update `VERSION` from
1.2.3 to 1.3.0 on the `version` branch without pushing. -/
def c5cfg : UpdaterCfg :=
  { filePath := "VERSION", pattern := patVersionTxt, oldVersion := "1.2.3",
    newVersion := "1.3.0", branch := some "version",
    commitMsg := "Bump version to 1.3.0", confirmPush := false }

/-- Repository of the C5 witness run: `main` active, `VERSION` on the
`version` branch only. -/
def c5st : RepoState :=
  { activeBranch := "main", branches := ["main", "version"],
    remoteBranches := ["main", "version"], tags := [],
    files := fun br => if br = "version" then [("VERSION", "1.2.3")] else [],
    tagFiles := fun _ => [] }

/-- Witness for C5: the concrete run commits on the version branch,
returns true, and its trace is checkout, write, stage, commit, restore. -/
theorem spec_C5_witness :
    (update_version (fun _ => false) c5cfg c5st).1 = Except.ok true ∧
    (∃ nc, (update_version (fun _ => false) c5cfg c5st).2.2 =
      [GitOp.checkout "version", GitOp.writeF "VERSION" nc, GitOp.add "VERSION",
       GitOp.commit "Bump version to 1.3.0", GitOp.checkout "main"]) := by
  have h := spec_C5_updater_commit_signal (fun _ => false) c5cfg c5st "version"
    (update_version (fun _ => false) c5cfg c5st).1
    (update_version (fun _ => false) c5cfg c5st).2.1
    (update_version (fun _ => false) c5cfg c5st).2.2 rfl rfl
  exact ⟨rfl, h.2.1 rfl⟩

/-! ## Rollback (rollback.py) and the error handlers of both commands -/

/-- Embeds the error handler of `create_release` (release.py lines
477-488): after an error, attempt to restore the working branch when it
is not the active branch, swallowing any failure of that checkout; the
handler itself never raises, as its result type shows. -/
def releaseErrorRestore (fails : GitOp → Bool) (wb : String) (st : RepoState) :
    RepoState × List GitOp :=
  if wb ≠ st.activeBranch then
    if fails (.checkout wb) then (st, [.checkout wb])
    else (applyOp st (.checkout wb), [.checkout wb])
  else (st, [])

/-- Embeds rollback.py's module-level `find_version_file` table: the
static convention entries in rollback's own order, then every walked
`__init__.py` (this walk, unlike the finder's, also takes a root-level
`__init__.py`). -/
def rb_common_files (st : RepoState) (br : String) : List (String × List RAtom) :=
  [("pyproject.toml", patVersionAssign),
   ("package.json", patPackageJson),
   ("setup.py", patVersionAssign),
   ("VERSION", patVersionTxt),
   ("version.txt", patVersionTxt),
   ("build.gradle", patVersionAssign),
   ("build.gradle.kts", patVersionAssign),
   ("Cargo.toml", patVersionAssign)] ++
  ((st.files br).filterMap (fun e =>
    match e.1.splitOn "/" with
    | [f] => if f = "__init__.py" then some (e.1, patPythonInit) else none
    | [_, f] => if f = "__init__.py" then some (e.1, patPythonInit) else none
    | _ => none))

/-- Embeds `find_version_file` (rollback.py lines 325-373): first table
entry that exists and yields a version, else the default
`src/voyager/__init__.py` when it exists. -/
def rb_find_version_file (st : RepoState) (br : String) : Option (String × List RAtom) :=
  match tryLocations (readFileB st br) (rb_common_files st br) with
  | some (_, p, pat) => some (p, pat)
  | none =>
    if fileExistsB st br "src/voyager/__init__.py" then
      some ("src/voyager/__init__.py", patPythonInit)
    else none

/-- Embeds `update_version_in_init` (rollback.py lines 426-444): rewrite
the dunder-version assignment of `src/voyager/__init__.py` with a
constant replacement (the source's pattern is the python-init regex with
an unnamed group); a read failure is re-raised as an error. -/
def update_version_in_init (version : String) (st : RepoState) :
    Except String (RepoState × List GitOp) :=
  match readFileB st st.activeBranch "src/voyager/__init__.py" with
  | none => .error "Failed to update version in code"
  | some content =>
    let newContent :=
      reSubConst patPythonInit ("__version__ = '" ++ version ++ "'") content
    .ok (applyOp st (.writeF "src/voyager/__init__.py" newContent),
      [.writeF "src/voyager/__init__.py" newContent])

/-- Configuration of one `rollback` invocation: the target tag, the
version file options, the confirmation answers, and the timestamp used
in the rollback tag name. -/
structure RollbackCfg where
  tag : String
  versionFile : Option String
  versionPattern : Option (List RAtom)
  versionBranch : Option String
  confirmProceed : Bool
  confirmPush : Bool
  timestamp : String

/-- Tail of the rollback flow (rollback.py lines 233-254): commit,
force-push the rollback branch, create the timestamped rollback tag and
push it.  Any git failure reaches the handler at lines 320-322, which
only reports and exits - it restores nothing. -/
def finishRollback (fails : GitOp → Bool) (cfg : RollbackCfg) (rbr : String)
    (st : RepoState) (tr : List GitOp) :
    Except Nat Unit × RepoState × List GitOp :=
  let cmsg := "Rollback to " ++ cfg.tag
  if fails (.commit cmsg) then (.error 1, st, tr ++ [.commit cmsg])
  else
    let st1 := applyOp st (.commit cmsg)
    let tr1 := tr ++ [.commit cmsg]
    if fails (.pushForce rbr) then (.error 1, st1, tr1 ++ [.pushForce rbr])
    else
      let st2 := applyOp st1 (.pushForce rbr)
      let tr2 := tr1 ++ [.pushForce rbr]
      let rtag := "rollback-" ++ cfg.tag ++ "-" ++ cfg.timestamp
      if fails (.mkTag rtag) then (.error 1, st2, tr2 ++ [.mkTag rtag])
      else
        let st3 := applyOp st2 (.mkTag rtag)
        let tr3 := tr2 ++ [.mkTag rtag]
        if fails (.push rtag) then (.error 1, st3, tr3 ++ [.push rtag])
        else (.ok (), applyOp st3 (.push rtag), tr3 ++ [.push rtag])

/-- Embeds the git portion of `rollback` (rollback.py lines 135-254):
validate the tag, confirm, delete a stale rollback branch (failure fine),
create the rollback branch from the tag, resolve and update the version
file (falling back to the init-file rewrite), stage when the updater did
not commit, then commit, push and tag.  Any error is caught at lines
320-322, which report and exit without any branch restoration. -/
def rollbackRun (fails : GitOp → Bool) (cfg : RollbackCfg) (st0 : RepoState) :
    Except Nat Unit × RepoState × List GitOp :=
  if st0.tags.any (fun t => t.name = cfg.tag) then
    if cfg.confirmProceed then
      let version := stripV cfg.tag
      let rbr := "rollback-to-" ++ cfg.tag
      let stA := if fails (.branchDelete rbr) then st0 else applyOp st0 (.branchDelete rbr)
      let trA := [GitOp.branchDelete rbr]
      if fails (.checkoutNewFrom rbr cfg.tag) then
        (.error 1, stA, trA ++ [.checkoutNewFrom rbr cfg.tag])
      else
        let stB := applyOp stA (.checkoutNewFrom rbr cfg.tag)
        let trB := trA ++ [.checkoutNewFrom rbr cfg.tag]
        let vf : Option (String × List RAtom) :=
          match cfg.versionFile with
          | some f =>
            if fileExistsB stB stB.activeBranch f then
              some (f, cfg.versionPattern.getD (guessPattern f))
            else rb_find_version_file stB stB.activeBranch
          | none => rb_find_version_file stB stB.activeBranch
        match vf with
        | some (path, pat) =>
          let cur := (match readFileB stB stB.activeBranch path with
                      | some c => extractVersion c pat
                      | none => none).getD "0.0.0"
          let uv := update_version fails
            { filePath := path, pattern := pat, oldVersion := cur, newVersion := version,
              branch := cfg.versionBranch,
              commitMsg := "Update version to " ++ version ++ " for rollback",
              confirmPush := cfg.confirmPush } stB
          match uv.1 with
          | .error _ => (.error 1, uv.2.1, trB ++ uv.2.2)
          | .ok committed =>
            let stC := uv.2.1
            let trC := trB ++ uv.2.2
            if committed then finishRollback fails cfg rbr stC trC
            else
              if fails (.add path) then (.error 1, stC, trC ++ [.add path])
              else finishRollback fails cfg rbr (applyOp stC (.add path)) (trC ++ [.add path])
        | none =>
          match update_version_in_init version stB with
          | .error _ => (.error 1, stB, trB)
          | .ok (stC, trW) =>
            if fails (.add "src/voyager/__init__.py") then
              (.error 1, stC, trB ++ trW ++ [.add "src/voyager/__init__.py"])
            else finishRollback fails cfg rbr
              (applyOp stC (.add "src/voyager/__init__.py"))
              (trB ++ trW ++ [.add "src/voyager/__init__.py"])
    else (.error 0, st0, [])
  else (.error 1, st0, [])

/-- C7, amended: in the release operation, any error after a branch
switch triggers an attempt to restore the working branch (the starting
branch when none was specified) before the error is reported, and that
attempt never raises - a failing restore checkout is swallowed, leaving
the state unchanged; the rollback operation attempts no restoration on
error. -/
theorem spec_C7_release_error_restores_working (fails : GitOp → Bool) (wb : String)
    (st : RepoState) (hne : wb ≠ st.activeBranch) :
    (releaseErrorRestore fails wb st).2 = [GitOp.checkout wb] ∧
    (fails (.checkout wb) = true → (releaseErrorRestore fails wb st).1 = st) ∧
    (fails (.checkout wb) = false →
      (releaseErrorRestore fails wb st).1.activeBranch = wb) := by
  unfold releaseErrorRestore
  rw [if_pos hne]
  by_cases hf : fails (GitOp.checkout wb) = true
  · rw [if_pos hf]
    exact ⟨rfl, fun _ => rfl, fun hc => absurd hf (by simp [hc])⟩
  · rw [if_neg hf]
    exact ⟨rfl, fun hc => absurd hc hf, fun _ => rfl⟩

/-- Witness for C7: a concrete failed release attempts the restoring
checkout of the working branch and succeeds. -/
theorem spec_C7_witness :
    ((releaseErrorRestore (fun _ => false) "feature"
        { activeBranch := "main", branches := ["main", "feature"],
          remoteBranches := ["main", "feature"], tags := [],
          files := fun _ => [], tagFiles := fun _ => [] }).2 =
      [GitOp.checkout "feature"]) ∧
    ((releaseErrorRestore (fun _ => false) "feature"
        { activeBranch := "main", branches := ["main", "feature"],
          remoteBranches := ["main", "feature"], tags := [],
          files := fun _ => [], tagFiles := fun _ => [] }).1.activeBranch = "feature") := by
  have h := spec_C7_release_error_restores_working (fun _ => false) "feature"
    { activeBranch := "main", branches := ["main", "feature"],
      remoteBranches := ["main", "feature"], tags := [],
      files := fun _ => [], tagFiles := fun _ => [] } (by decide)
  exact ⟨h.1, h.2.2 rfl⟩

/-- Rollback configuration of the C7 counterexample: tag v1.0.0, default
version options, confirmations granted. -/
def c7cfg : RollbackCfg :=
  { tag := "v1.0.0", versionFile := none, versionPattern := none,
    versionBranch := some "version", confirmProceed := true,
    confirmPush := false, timestamp := "20250101000000" }

/-- Repository of the C7 counterexample: `main` active, tag v1.0.0 with
no files anywhere. -/
def c7st : RepoState :=
  { activeBranch := "main", branches := ["main"], remoteBranches := ["main"],
    tags := [⟨"v1.0.0", 1⟩], files := fun _ => [], tagFiles := fun _ => [] }

/-- C7 counterexample: this concrete rollback errors after switching to
the rollback branch, exits with that branch still active, and its trace
contains no restoring checkout of the starting branch. -/
theorem spec_C7_counterexample :
    (rollbackRun (fun _ => false) c7cfg c7st).1 = .error 1 ∧
    (rollbackRun (fun _ => false) c7cfg c7st).2.1.activeBranch = "rollback-to-v1.0.0" ∧
    (rollbackRun (fun _ => false) c7cfg c7st).2.2.contains (GitOp.checkout "main") = false := by
  refine ⟨rfl, rfl, rfl⟩
